import Mathlib

/-!
Verification development for the czds client (Go).

Shallow embedding of the download orchestration engine and the
authenticated-request layer:
  - the atomic temp-file download (downloadTime in the download command,
    DownloadZoneToWriterWithContext in zones.go)
  - path resolution and safety checks (zoneDownload)
  - the retrying request executor (apiRequest / jsonRequest in czds.go)
  - token lifecycle (checkAuth / AuthenticateWithContext in czds.go)
  - the worker retry loop of the download command
  - the paginated lister (GetAllRequestsWithContext)
  - redacted String / GoString renderings.

The filesystem is modelled as a partial map from path strings to file sizes;
machine integers are modelled as Int or Nat (no overflow is reachable in the
modelled code paths).
-/

namespace Czds

/-! ## Abstract filesystem -/

/-- A filesystem maps a path to the size of the file stored there, if any. -/
def FS : Type := String → Option Nat

/-- Create or truncate-and-write a file of the given size. -/
def fsWrite (fs : FS) (p : String) (sz : Nat) : FS :=
  fun q => if q = p then some sz else fs q

/-- Remove a file, modelling os.Remove. -/
def fsRemove (fs : FS) (p : String) : FS :=
  fun q => if q = p then none else fs q

/-- Atomic rename, modelling os.Rename: dst receives the content of src,
src disappears. -/
def fsRename (fs : FS) (src dst : String) : FS :=
  fun q => if q = dst then fs src else if q = src then none else fs q

/-- The empty filesystem. -/
def fsEmpty : FS := fun _ => none

/-! ## downloadTime (download command) and DownloadZoneToWriterWithContext
(zones.go)

downloadTime creates the temp file fullPath plus the suffix .tmp, streams
the body into it via DownloadZoneToWriterWithContext, validates the byte
count, and in a deferred block either removes the temp file (on error or
context cancellation) or renames it onto fullPath.

One execution of the download is abstracted by a DownloadOutcome: the
sequence of successful chunk writes, whether the request or the body copy
errored afterwards, the Content-Length header of the GET response, whether
the buffered-writer flush failed, and whether the context was already
cancelled when the deferred cleanup ran. -/

/-- One abstract execution of the GET request plus body copy feeding
downloadTime. -/
structure DownloadOutcome where
  chunks : List Nat
  copyErr : Bool
  respContentLength : Int
  flushErr : Bool
  ctxErrAtDefer : Bool
  deriving DecidableEq

/-- Return value of DownloadZoneToWriterWithContext: the number of bytes
written, or an error when the request or copy failed, or when the server
declared a positive Content-Length that the written count does not match. -/
def downloadZoneToWriterModel (o : DownloadOutcome) : Except String Nat :=
  let w := o.chunks.sum
  if o.copyErr then Except.error "error on request"
  else if 0 < o.respContentLength ∧ (w : Int) ≠ o.respContentLength then
    Except.error "downloaded bytes do not match content-length"
  else Except.ok w

/-- The error value returned by downloadTime, mirroring its early returns:
copy or request error, content-length mismatch, flush failure, empty file. -/
def downloadTimeRetErr (o : DownloadOutcome) : Option String :=
  match downloadZoneToWriterModel o with
  | Except.error e => some e
  | Except.ok w =>
    if o.flushErr then some "failed to flush buffer"
    else if w = 0 then some "file was empty"
    else none

/-- Filesystem states produced by the successive chunk writes to the temp
file: the size at p grows by each chunk. -/
def writeStates (p : String) : FS → Nat → List Nat → List FS
  | _, _, [] => []
  | fs, acc, c :: cs =>
    let fs1 := fsWrite fs p (acc + c)
    fs1 :: writeStates p fs1 (acc + c) cs

/-- Result of one run of downloadTime: the final filesystem, the returned
error value (none means the function returned nil), and the trace of every
intermediate filesystem state, starting from the initial one. -/
structure DownloadTimeRun where
  fs : FS
  result : Option String
  trace : List FS

/-- The filesystem state after the temp file has been created and all body
chunks written to it. -/
def dtAfterWrite (fs0 : FS) (fullPath : String) (o : DownloadOutcome) : FS :=
  (writeStates (fullPath ++ ".tmp") (fsWrite fs0 (fullPath ++ ".tmp") 0) 0
    o.chunks).getLastD (fsWrite fs0 (fullPath ++ ".tmp") 0)

/-- Model of downloadTime: create the temp file (fullPath plus .tmp in the
same directory), write the body chunks to it, compute the returned error,
then run the deferred cleanup: remove the temp file when the download
errored or the context is cancelled, otherwise rename it onto fullPath. -/
def downloadTimeModel (fs0 : FS) (fullPath : String) (o : DownloadOutcome) :
    DownloadTimeRun :=
  let tempPath := fullPath ++ ".tmp"
  let fs1 := fsWrite fs0 tempPath 0
  let mid := writeStates tempPath fs1 0 o.chunks
  let retErr := downloadTimeRetErr o
  let fsFinal :=
    if retErr.isSome ∨ o.ctxErrAtDefer then
      fsRemove (dtAfterWrite fs0 fullPath o) tempPath
    else fsRename (dtAfterWrite fs0 fullPath o) tempPath fullPath
  { fs := fsFinal, result := retErr,
    trace := fs0 :: fs1 :: (mid ++ [fsFinal]) }

/-! ## Path resolution and safety (zoneDownload, lines 364-389)

Models of the Go standard library path helpers used there, for Unix
separators: path/filepath Clean, Base, Join, Abs. Abs is parameterized by
the process working directory. Splitting and prefix tests are implemented
over character lists; the Go code only ever splits on one-character
separators, for which these agree with strings.Split and
strings.HasPrefix. -/

/-- Characterwise split on a single separator character, on character
lists. The result is always nonempty. -/
def splitOnCharList (sep : Char) : List Char → List (List Char)
  | [] => [[]]
  | c :: cs =>
    let r := splitOnCharList sep cs
    if c = sep then [] :: r
    else
      match r with
      | [] => [[c]]
      | g :: gs => (c :: g) :: gs

/-- Model of strings.Split with a one-character separator. -/
def splitOnChar (sep : Char) (s : String) : List String :=
  (splitOnCharList sep s.toList).map String.mk

/-- Whether a string starts with the given character. -/
def startsWithChar (c : Char) (s : String) : Bool :=
  match s.toList with
  | [] => false
  | c0 :: _ => c0 = c

/-- Model of strings.HasPrefix. -/
def strHasPre (pre s : String) : Bool :=
  pre.toList.isPrefixOf s.toList

/-- One step of the lexical cleanup of filepath.Clean: push a path
component onto the stack of kept components (held in reverse order).
Empty components and dot components are dropped; a dotdot component pops
the last kept component, except at the root of a rooted path (dropped) and
in an unrooted path with nothing left to pop (kept). -/
def cleanPush (rooted : Bool) (stack : List String) (comp : String) :
    List String :=
  if comp = "" ∨ comp = "." then stack
  else if comp = ".." then
    match stack with
    | [] => if rooted then [] else [".."]
    | top :: rest => if top = ".." then comp :: top :: rest else rest
  else comp :: stack

/-- Model of Go filepath.Clean (Unix): shortest lexically equivalent path.
Implemented by the component-stack formulation of the algorithm. -/
def filepathClean (p : String) : String :=
  if p = "" then "."
  else
    let rooted := startsWithChar '/' p
    let comps := (splitOnChar '/' p).foldl (cleanPush rooted) []
    let body := String.intercalate "/" comps.reverse
    if rooted then (if body = "" then "/" else "/" ++ body)
    else (if body = "" then "." else body)

/-- Model of Go filepath.Base (Unix): strip trailing slashes, then keep the
part after the last slash; the empty path gives dot and an all-slash path
gives the separator. -/
def filepathBase (p : String) : String :=
  if p = "" then "."
  else
    let stripped := String.mk ((p.toList.reverse.dropWhile (· = '/')).reverse)
    if stripped = "" then "/"
    else String.mk ((stripped.toList.reverse.takeWhile (· ≠ '/')).reverse)

/-- Model of Go filepath.Join on two elements (Unix): empty elements are
skipped, the rest are joined with a separator and cleaned. -/
def filepathJoin (a b : String) : String :=
  if a = "" then (if b = "" then "" else filepathClean b)
  else filepathClean (a ++ "/" ++ b)

/-- Model of Go filepath.Abs (Unix), parameterized by the working
directory: an already absolute path is cleaned, otherwise it is joined to
the working directory. -/
def filepathAbs (cwd p : String) : String :=
  if startsWithChar '/' p then filepathClean p else filepathJoin cwd p

/-- The filename resolution and path-safety checks of zoneDownload: reduce
the candidate name to its final path segment with filepath.Base, reject
dot and dotdot, join with the output directory, and reject a resolved
absolute path that is neither the output directory itself nor strictly
inside it. Returns the relative destination path on success. -/
def zoneDownloadResolve (cwd outDir localFileName : String) :
    Except String String :=
  let safeFileName := filepathBase localFileName
  if safeFileName = "." ∨ safeFileName = ".." then
    Except.error "invalid filename"
  else
    let fullPath := filepathJoin outDir safeFileName
    let absOutDir := filepathAbs cwd outDir
    let absFullPath := filepathAbs cwd fullPath
    if ¬ strHasPre (absOutDir ++ "/") absFullPath ∧ absFullPath ≠ absOutDir
    then Except.error "resolved path is outside output directory"
    else Except.ok fullPath

/-! ## The authenticated request executor: apiRequest and jsonRequest
(czds.go, lines 155-261)

An execution is abstracted by an oracle giving the outcome of each HTTP
send (1-based attempt index) and an optional context-cancellation time.
Each send is instantaneous; each completed retry sleep advances the clock
by retryDelayLen time units. -/

/-- JSON decode of an error response body, modelling errorResponse. -/
structure ErrBody where
  message : String
  httpStatus : Int
  deriving DecidableEq

/-- An HTTP response as seen by jsonRequest: status code, declared content
length, and the decode of the body as an errorResponse (none when the body
is not valid JSON). -/
structure HttpResponse where
  status : Nat
  contentLength : Int
  body : Option ErrBody
  deriving DecidableEq

/-- Outcome of one send: a transport-level error from the HTTP client, or
a response (of any status). -/
inductive AttemptResult where
  | transportErr (e : String)
  | response (r : HttpResponse)
  deriving DecidableEq

/-- Errors returned by apiRequest: context cancellation, or the last
transport error wrapped with the attempt count (attempt and total). -/
inductive ReqError where
  | ctxCancelled
  | transport (attempt total : Nat) (e : String)
  deriving DecidableEq

deriving instance DecidableEq for Except

/-- Whether the context is cancelled at the given time. -/
def ctxDone (cancelAt : Option Nat) (now : Nat) : Bool :=
  match cancelAt with
  | none => false
  | some t => t ≤ now

/-- The fixed retry delay of apiRequest, in time units. -/
def retryDelayLen : Nat := 10

/-- The fixed total number of attempts of apiRequest. -/
def defaultRetries : Nat := 3

/-- Result of one run of apiRequest: the returned value, the number of
sends performed, and the durations of the retry sleeps completed. -/
structure ApiReqRun where
  result : Except ReqError HttpResponse
  attempts : Nat
  sleeps : List Nat
  deriving DecidableEq

/-- The retry loop of apiRequest. Each iteration checks the context, sends
once, returns any response immediately, and on a transport error either
gives up (wrapping the error with the attempt count) on the last attempt
or sleeps for retryDelayLen, the sleep being interruptible by context
cancellation. -/
def apiRequestAux (oracle : Nat → AttemptResult) (cancelAt : Option Nat)
    (total : Nat) :
    (remaining attempt now attempts : Nat) → List Nat → ApiReqRun
  | 0, attempt, _, attempts, sleeps =>
      -- only reachable when the executor is started with zero total
      -- attempts, which never happens: the total is fixed at 3
      ⟨Except.error (ReqError.transport attempt total "no attempts"),
        attempts, sleeps⟩
  | remaining + 1, attempt, now, attempts, sleeps =>
      if ctxDone cancelAt now then
        ⟨Except.error ReqError.ctxCancelled, attempts, sleeps⟩
      else
        match oracle attempt with
        | AttemptResult.response r => ⟨Except.ok r, attempts + 1, sleeps⟩
        | AttemptResult.transportErr e =>
          if remaining = 0 then
            ⟨Except.error (ReqError.transport attempt total e),
              attempts + 1, sleeps⟩
          else if ctxDone cancelAt (now + retryDelayLen) then
            ⟨Except.error ReqError.ctxCancelled, attempts + 1, sleeps⟩
          else
            apiRequestAux oracle cancelAt total remaining (attempt + 1)
              (now + retryDelayLen) (attempts + 1)
              (sleeps ++ [retryDelayLen])

/-- Model of apiRequest: up to defaultRetries attempts starting at time 0. -/
def apiRequestGo (oracle : Nat → AttemptResult) (cancelAt : Option Nat) :
    ApiReqRun :=
  apiRequestAux oracle cancelAt defaultRetries defaultRetries 1 0 0 []

/-- Errors returned by jsonRequest: an executor error passed through, a
non-200 status with an empty body, a non-200 status whose body failed to
decode, or the decoded structured API error carrying the message and the
numeric status from the body. -/
inductive JsonReqError where
  | fromReq (e : ReqError)
  | statusNoBody (status : Nat)
  | jsonDecodeFailed (status : Nat)
  | api (status : Nat) (httpStatus : Int) (message : String)
  deriving DecidableEq

/-- Result of one run of jsonRequest. -/
structure JsonReqRun where
  result : Except JsonReqError HttpResponse
  attempts : Nat
  sleeps : List Nat
  deriving DecidableEq

/-- Model of jsonRequest: run apiRequest; a response with status other
than 200 becomes an error immediately, decoded from the body when the
declared content length is nonzero; a 200 response is returned. -/
def jsonRequestGo (oracle : Nat → AttemptResult) (cancelAt : Option Nat) :
    JsonReqRun :=
  let r := apiRequestGo oracle cancelAt
  match r.result with
  | Except.error e => ⟨Except.error (JsonReqError.fromReq e), r.attempts, r.sleeps⟩
  | Except.ok resp =>
    if resp.status ≠ 200 then
      if resp.contentLength ≠ 0 then
        match resp.body with
        | none =>
          ⟨Except.error (JsonReqError.jsonDecodeFailed resp.status),
            r.attempts, r.sleeps⟩
        | some eb =>
          ⟨Except.error (JsonReqError.api resp.status eb.httpStatus eb.message),
            r.attempts, r.sleeps⟩
      else
        ⟨Except.error (JsonReqError.statusNoBody resp.status),
          r.attempts, r.sleeps⟩
    else ⟨Except.ok resp, r.attempts, r.sleeps⟩

/-! ## Token lifecycle: checkAuth and AuthenticateWithContext
(czds.go, lines 125-144 and 272-301) and jwt.DecodeJWT

The base64 and JSON decoding stages of jwt.DecodeJWT are pure data parsing
(outside the core); they are abstracted by an oracle taking the three
dot-separated token parts and yielding the exp claim. The dot-splitting
and three-parts check of DecodeJWT are modelled faithfully. -/

/-- Model of the part of jwt.DecodeJWT consumed by getExpiration: split on
dots, require exactly three parts, then decode via the oracle. -/
def decodeJWTExp (jwtRest : String → String → String → Except String Int)
    (s : String) : Except String Int :=
  match splitOnChar '.' s with
  | [h, d, sig] => jwtRest h d sig
  | _ => Except.error "JWT token does not have 3 parts"

/-- The token state of the client: access token and expiry timestamp. -/
structure AuthState where
  accessToken : String
  authExp : Int
  deriving DecidableEq

/-- The 30 time-unit safety margin used by checkAuth. -/
def bufferTime : Int := 30

/-- Model of AuthenticateWithContext: on network success store the token,
extract its expiry, and require the expiry to be strictly in the future.
The net argument is the outcome of the authentication POST (the new access
token string, or an error). The partially updated client state left behind
by a failed renewal is never observed by any modelled caller, so the error
branches carry no state. -/
def authenticateGo (jwtRest : String → String → String → Except String Int)
    (now : Int) (net : Except String String) (_st : AuthState) :
    Except String AuthState :=
  match net with
  | Except.error e => Except.error e
  | Except.ok tok =>
    match decodeJWTExp jwtRest tok with
    | Except.error e => Except.error e
    | Except.ok exp =>
      if now < exp then Except.ok { accessToken := tok, authExp := exp }
      else Except.error "unable to authenticate"

/-- Model of checkAuth, run under the client mutex: renew when no token is
held or when the expiry is within the 30 time-unit buffer, otherwise keep
the current state. The Bool records whether a network authentication was
performed. -/
def checkAuthGo (jwtRest : String → String → String → Except String Int)
    (now : Int) (net : Except String String) (st : AuthState) :
    Except String AuthState × Bool :=
  if st.accessToken = "" then (authenticateGo jwtRest now net st, true)
  else if st.authExp < now + bufferTime then
    (authenticateGo jwtRest now net st, true)
  else (Except.ok st, false)

/-- K callers of checkAuth serialized by the client mutex, all at the same
time instant. The i-th network authentication consumes nets i. Returns the
final state, the total number of network authentications, and the result
each caller observed. -/
def checkAuthSeq (jwtRest : String → String → String → Except String Int)
    (now : Int) (nets : Nat → Except String String) :
    (k : Nat) → AuthState → Nat →
    AuthState × Nat × List (Except String AuthState)
  | 0, st, calls => (st, calls, [])
  | k + 1, st, calls =>
    let r := checkAuthGo jwtRest now (nets calls) st
    let st1 := match r.1 with | Except.ok s => s | Except.error _ => st
    let calls1 := if r.2 then calls + 1 else calls
    let w := checkAuthSeq jwtRest now nets k st1 calls1
    (w.1, w.2.1, r.1 :: w.2.2)

/-! ## The download worker (download command, lines 291-350)

A worker drains its share of the task queue; for each task it attempts the
fetch up to the configured retry count with a fixed inter-attempt delay,
both cancellable, and after exhausting the retries it removes whatever
file exists at the resolved destination path and moves on. The fetch of a
task is an abstract filesystem transformer (attempt index, filesystem to
new filesystem and optional error); fetchOfDownload instantiates it with
the downloadTime model. -/

/-- The fixed delay between download retry attempts, in time units. -/
def downloadRetryDelayLen : Nat := 15

/-- One queued download task: its resolved destination path and the effect
of one fetch attempt. -/
structure WTask where
  fullPath : String
  fetch : Nat → FS → FS × Option String

/-- Result of the per-task retry loop. -/
structure RetryLoopRun where
  fs : FS
  now : Nat
  attempts : Nat
  sleeps : List Nat
  lastErr : Option String
  cancelled : Bool

/-- The retry loop of the worker for one task: check the context, attempt
the fetch, stop on success, stop without sleeping after the last attempt,
otherwise sleep for downloadRetryDelayLen with the sleep interruptible by
cancellation. -/
def retryLoop (cancelAt : Option Nat) (fetch : Nat → FS → FS × Option String) :
    (remaining attempt : Nat) → FS → (now attempts : Nat) → List Nat →
    Option String → RetryLoopRun
  | 0, _, fs, now, attempts, sleeps, lastErr =>
      ⟨fs, now, attempts, sleeps, lastErr, false⟩
  | remaining + 1, attempt, fs, now, attempts, sleeps, lastErr =>
      if ctxDone cancelAt now then ⟨fs, now, attempts, sleeps, lastErr, true⟩
      else
        match fetch attempt fs with
        | (fs1, none) => ⟨fs1, now, attempts + 1, sleeps, none, false⟩
        | (fs1, some e) =>
          if remaining = 0 then
            ⟨fs1, now, attempts + 1, sleeps, some e, false⟩
          else if ctxDone cancelAt (now + downloadRetryDelayLen) then
            ⟨fs1, now, attempts + 1, sleeps, some e, true⟩
          else
            retryLoop cancelAt fetch remaining (attempt + 1) fs1
              (now + downloadRetryDelayLen) (attempts + 1)
              (sleeps ++ [downloadRetryDelayLen]) (some e)

/-- The cleanup the worker runs when a task has exhausted its retries with
an error: if a file exists at the resolved destination path, remove it. -/
def taskCleanup (t : WTask) (r : RetryLoopRun) : FS :=
  match r.lastErr with
  | none => r.fs
  | some _ => if (r.fs t.fullPath).isSome then fsRemove r.fs t.fullPath else r.fs

/-- What the worker reports for one fully processed task. -/
structure TaskReport where
  fullPath : String
  attempts : Nat
  sleeps : List Nat
  lastErr : Option String

/-- Result of one worker draining its task list: final filesystem, final
time, one report per fully processed task, and whether the worker returned
the context cancellation error instead of nil. -/
structure WorkerRun where
  fs : FS
  now : Nat
  reports : List TaskReport
  cancelled : Bool

/-- Model of the worker: process the queued tasks in order; a permanent
per-task failure is cleaned up and does not stop the worker; context
cancellation stops the worker immediately. -/
def workerGo (cancelAt : Option Nat) (retries : Nat) :
    List WTask → FS → Nat → WorkerRun
  | [], fs, now => ⟨fs, now, [], ctxDone cancelAt now⟩
  | t :: ts, fs, now =>
    if ctxDone cancelAt now then ⟨fs, now, [], true⟩
    else
      let r := retryLoop cancelAt t.fetch retries 1 fs now 0 [] none
      if r.cancelled then ⟨r.fs, r.now, [], true⟩
      else
        let fs1 := taskCleanup t r
        let w := workerGo cancelAt retries ts fs1 r.now
        ⟨w.fs, w.now, ⟨t.fullPath, r.attempts, r.sleeps, r.lastErr⟩ :: w.reports,
          w.cancelled⟩

/-- The fetch a worker task performs when zoneDownload decides to
download: one run of the downloadTime model, surfacing its returned
error. -/
def fetchOfDownload (fullPath : String) (outcomes : Nat → DownloadOutcome) :
    Nat → FS → FS × Option String :=
  fun i fs =>
    let run := downloadTimeModel fs fullPath (outcomes i)
    (run.fs, run.result)

/-! ## The skip decision of zoneDownload (download command, lines 391-431) -/

/-- Outcome of the os.Stat call on the destination path. -/
inductive StatResult where
  | found (size modTime : Int)
  | notExist
  | statErr (e : String)
  deriving DecidableEq

/-- Remote metadata from the HEAD probe consumed by the skip decision. -/
structure DlInfo where
  contentLength : Int
  lastModified : Int
  deriving DecidableEq

/-- Observable outcome of zoneDownload after the path checks: whether the
download was performed, the bytes transferred, and the returned error. -/
structure ZoneDownloadRun where
  downloadCalled : Bool
  bytes : Nat
  result : Option String
  deriving DecidableEq

/-- Model of the decision logic of zoneDownload after path resolution:
force mode always downloads; with an existing local file and redownload
mode, download only on size mismatch or an older local modification time,
otherwise skip; a missing local file downloads; an existing local file
without redownload mode skips; any other stat error is returned. The
download itself is abstracted by its reported byte count and error. -/
def zoneDownloadGo (force redownload : Bool) (info : DlInfo)
    (st : StatResult) (dlBytes : Nat) (dlErr : Option String) :
    ZoneDownloadRun :=
  if force then ⟨true, dlBytes, dlErr⟩
  else
    match st with
    | StatResult.found size modTime =>
      if redownload then
        if size ≠ info.contentLength then ⟨true, dlBytes, dlErr⟩
        else if modTime < info.lastModified then ⟨true, dlBytes, dlErr⟩
        else ⟨false, 0, none⟩
      else ⟨false, 0, none⟩
    | StatResult.notExist => ⟨true, dlBytes, dlErr⟩
    | StatResult.statErr e => ⟨false, 0, some e⟩

/-! ## The paginated lister: GetAllRequestsWithContext (czds.go, lines
380-421)

Pages are abstracted by an oracle from page index to the fetch outcome;
items are abstract. Each call records the (page size, page index) pair it
sent. The loop recursion is fueled; every theorem below supplies enough
fuel for the run it describes. -/

/-- The fixed page size of GetAllRequestsWithContext. -/
def listPageSize : Nat := 100

/-- The page-increment loop: while the page just fetched is nonempty,
append its items and fetch the next page; a fetch error returns the items
gathered so far together with the error. -/
def getAllRequestsAux (pages : Nat → Except String (List Nat)) :
    (fuel page : Nat) → (cur out : List Nat) → List (Nat × Nat) →
    (List Nat × Option String) × List (Nat × Nat)
  | 0, _, _, out, calls => ((out, none), calls)
  | fuel + 1, page, cur, out, calls =>
    if cur = [] then ((out, none), calls)
    else
      let out1 := out ++ cur
      match pages (page + 1) with
      | Except.error e => ((out1, some e), calls ++ [(listPageSize, page + 1)])
      | Except.ok cur1 =>
        getAllRequestsAux pages fuel (page + 1) cur1 out1
          (calls ++ [(listPageSize, page + 1)])

/-- Model of GetAllRequestsWithContext: fetch page 0, then run the
page-increment loop. -/
def getAllRequestsGo (pages : Nat → Except String (List Nat)) (fuel : Nat) :
    (List Nat × Option String) × List (Nat × Nat) :=
  match pages 0 with
  | Except.error e => (([], some e), [(listPageSize, 0)])
  | Except.ok r0 => getAllRequestsAux pages fuel 0 r0 [] [(listPageSize, 0)]

/-! ## Redacted renderings (czds.go, lines 82-105) -/

/-- Credentials used by the client. -/
structure Credentials where
  username : String
  password : String
  deriving DecidableEq

/-- The authentication response body. -/
structure AuthResponseData where
  accessToken : String
  message : String
  deriving DecidableEq

/-- Escaping of one character under the Go format verb %q, for the escape
classes that can occur in the modelled fields. -/
def goQuoteChar (c : Char) : String :=
  if c = '"' then "\\\""
  else if c = '\\' then "\\\\"
  else if c = '\n' then "\\n"
  else if c = '\t' then "\\t"
  else if c = '\r' then "\\r"
  else String.singleton c

/-- Model of the Go format verb %q: a double-quoted, escaped string. -/
def goQuote (s : String) : String :=
  "\"" ++ String.join (s.toList.map goQuoteChar) ++ "\""

/-- Model of Credentials.String: the username quoted, the password
redacted. -/
def credentialsString (c : Credentials) : String :=
  "Credentials\x7bUsername: " ++ goQuote c.username ++ ", Password: [REDACTED]\x7d"

/-- Model of Credentials.GoString. -/
def credentialsGoString (c : Credentials) : String :=
  "Credentials\x7bUsername: " ++ goQuote c.username ++
    ", Password: \"[REDACTED]\"\x7d"

/-- Model of authResponse.String: the access token redacted, the message
quoted. -/
def authResponseString (a : AuthResponseData) : String :=
  "authResponse\x7bAccessToken: [REDACTED], Message: " ++ goQuote a.message ++ "\x7d"

/-- Model of authResponse.GoString. -/
def authResponseGoString (a : AuthResponseData) : String :=
  "authResponse\x7bAccessToken: \"[REDACTED]\", Message: " ++
    goQuote a.message ++ "\x7d"

/-! ## Shared lemmas about the filesystem model -/

theorem tmpPath_ne (p : String) : p ++ ".tmp" ≠ p := by
  intro h
  have h2 := congrArg String.length h
  rw [String.length_append] at h2
  have h3 : (".tmp" : String).length = 4 := rfl
  omega

theorem fsWrite_self (fs : FS) (p : String) (sz : Nat) :
    fsWrite fs p sz p = some sz := by
  simp [fsWrite]

theorem fsWrite_other (fs : FS) (p q : String) (sz : Nat) (h : q ≠ p) :
    fsWrite fs p sz q = fs q := by
  simp [fsWrite, h]

theorem fsRemove_self (fs : FS) (p : String) : fsRemove fs p p = none := by
  simp [fsRemove]

theorem fsRemove_other (fs : FS) (p q : String) (h : q ≠ p) :
    fsRemove fs p q = fs q := by
  simp [fsRemove, h]

theorem fsRename_dst (fs : FS) (src dst : String) :
    fsRename fs src dst dst = fs src := by
  simp [fsRename]

theorem fsRename_src (fs : FS) (src dst : String) (h : src ≠ dst) :
    fsRename fs src dst src = none := by
  simp [fsRename, h]

theorem writeStates_last_self (p : String) (cs : List Nat) :
    ∀ (fs : FS) (acc : Nat), fs p = some acc →
      ((writeStates p fs acc cs).getLastD fs) p = some (acc + cs.sum) := by
  induction cs with
  | nil => intro fs acc h; simpa [writeStates] using h
  | cons c cs ih =>
    intro fs acc h
    simp only [writeStates, List.getLastD_cons, List.sum_cons]
    rw [ih (fsWrite fs p (acc + c)) (acc + c) (fsWrite_self fs p (acc + c))]
    congr 1
    omega

theorem writeStates_last_other (p q : String) (h : q ≠ p) (cs : List Nat) :
    ∀ (fs : FS) (acc : Nat), ((writeStates p fs acc cs).getLastD fs) q = fs q := by
  induction cs with
  | nil => intro fs acc; simp [writeStates]
  | cons c cs ih =>
    intro fs acc
    simp only [writeStates, List.getLastD_cons]
    rw [ih (fsWrite fs p (acc + c)) (acc + c), fsWrite_other _ _ _ _ h]

theorem writeStates_mem_other (p q : String) (h : q ≠ p) (cs : List Nat) :
    ∀ (fs : FS) (acc : Nat) (s : FS), s ∈ writeStates p fs acc cs → s q = fs q := by
  induction cs with
  | nil => intro fs acc s hs; simp [writeStates] at hs
  | cons c cs ih =>
    intro fs acc s hs
    simp only [writeStates, List.mem_cons] at hs
    rcases hs with rfl | hs
    · exact fsWrite_other _ _ _ _ h
    · rw [ih _ _ _ hs, fsWrite_other _ _ _ _ h]

/-! ## Lemmas about the downloadTime model -/

theorem downloadTimeRetErr_eq (o : DownloadOutcome) :
    downloadTimeRetErr o =
      if o.copyErr then some "error on request"
      else if 0 < o.respContentLength ∧ (o.chunks.sum : Int) ≠ o.respContentLength
        then some "downloaded bytes do not match content-length"
      else if o.flushErr then some "failed to flush buffer"
      else if o.chunks.sum = 0 then some "file was empty"
      else none := by
  simp only [downloadTimeRetErr, downloadZoneToWriterModel]
  by_cases h1 : o.copyErr = true
  · rw [if_pos h1, if_pos h1]
  · rw [if_neg h1, if_neg h1]
    by_cases h2 : 0 < o.respContentLength ∧ (o.chunks.sum : Int) ≠ o.respContentLength
    · rw [if_pos h2, if_pos h2]
    · rw [if_neg h2, if_neg h2]

theorem downloadTimeRetErr_none_facts (o : DownloadOutcome)
    (h : downloadTimeRetErr o = none) :
    o.chunks.sum ≠ 0 ∧
      (0 < o.respContentLength → (o.chunks.sum : Int) = o.respContentLength) := by
  rw [downloadTimeRetErr_eq] at h
  split_ifs at h with h1 h2 h3 h4
  refine ⟨h4, fun hcl => ?_⟩
  by_contra hw
  exact h2 ⟨hcl, hw⟩

theorem dtAfterWrite_tmp (fs0 : FS) (p : String) (o : DownloadOutcome) :
    dtAfterWrite fs0 p o (p ++ ".tmp") = some o.chunks.sum := by
  have h := writeStates_last_self (p ++ ".tmp") o.chunks
    (fsWrite fs0 (p ++ ".tmp") 0) 0 (fsWrite_self fs0 (p ++ ".tmp") 0)
  simpa [dtAfterWrite] using h

theorem dtAfterWrite_other (fs0 : FS) (p : String) (o : DownloadOutcome)
    (q : String) (h : q ≠ p ++ ".tmp") : dtAfterWrite fs0 p o q = fs0 q := by
  unfold dtAfterWrite
  rw [writeStates_last_other (p ++ ".tmp") q h o.chunks,
    fsWrite_other fs0 (p ++ ".tmp") q 0 h]

theorem downloadTimeModel_result (fs0 : FS) (p : String) (o : DownloadOutcome) :
    (downloadTimeModel fs0 p o).result = downloadTimeRetErr o := rfl

theorem downloadTimeModel_fs (fs0 : FS) (p : String) (o : DownloadOutcome) :
    (downloadTimeModel fs0 p o).fs =
      if (downloadTimeRetErr o).isSome ∨ o.ctxErrAtDefer then
        fsRemove (dtAfterWrite fs0 p o) (p ++ ".tmp")
      else fsRename (dtAfterWrite fs0 p o) (p ++ ".tmp") p := rfl

theorem downloadTimeModel_trace (fs0 : FS) (p : String) (o : DownloadOutcome) :
    (downloadTimeModel fs0 p o).trace =
      fs0 :: fsWrite fs0 (p ++ ".tmp") 0 ::
        (writeStates (p ++ ".tmp") (fsWrite fs0 (p ++ ".tmp") 0) 0 o.chunks ++
          [(downloadTimeModel fs0 p o).fs]) := rfl

theorem downloadTimeModel_fs_err (fs0 : FS) (p : String) (o : DownloadOutcome)
    (hc : (downloadTimeRetErr o).isSome = true ∨ o.ctxErrAtDefer = true) :
    (downloadTimeModel fs0 p o).fs (p ++ ".tmp") = none ∧
      (downloadTimeModel fs0 p o).fs p = fs0 p := by
  have hne : p ≠ p ++ ".tmp" := fun h => tmpPath_ne p h.symm
  rw [downloadTimeModel_fs, if_pos hc]
  exact ⟨fsRemove_self _ _, by
    rw [fsRemove_other _ _ _ hne, dtAfterWrite_other fs0 p o p hne]⟩

theorem downloadTimeModel_fs_ok (fs0 : FS) (p : String) (o : DownloadOutcome)
    (hc : ¬((downloadTimeRetErr o).isSome = true ∨ o.ctxErrAtDefer = true)) :
    (downloadTimeModel fs0 p o).fs p = some o.chunks.sum ∧
      (downloadTimeModel fs0 p o).fs (p ++ ".tmp") = none := by
  rw [downloadTimeModel_fs, if_neg hc]
  exact ⟨by rw [fsRename_dst, dtAfterWrite_tmp],
    fsRename_src _ _ _ (tmpPath_ne p)⟩

/-! ## C1 -/

/-- C1: once the temporary file (the destination path plus a .tmp suffix,
in the same directory) has been created, a run of downloadTime either
succeeds, a nonzero byte count having been written that equals any
declared positive content length, and the temporary file is renamed onto
the destination, or fails or is cancelled and the temporary file is
deleted; and no filesystem state of the run ever holds a partially written
file at the destination name. -/
theorem C1_downloadTime_atomic (fs0 : FS) (fullPath : String)
    (o : DownloadOutcome) :
    (((downloadTimeModel fs0 fullPath o).result = none ∧ o.ctxErrAtDefer = false) →
       o.chunks.sum ≠ 0 ∧
       (0 < o.respContentLength → (o.chunks.sum : Int) = o.respContentLength) ∧
       (downloadTimeModel fs0 fullPath o).fs fullPath = some o.chunks.sum ∧
       (downloadTimeModel fs0 fullPath o).fs (fullPath ++ ".tmp") = none) ∧
    (((downloadTimeModel fs0 fullPath o).result ≠ none ∨ o.ctxErrAtDefer = true) →
       (downloadTimeModel fs0 fullPath o).fs (fullPath ++ ".tmp") = none ∧
       (downloadTimeModel fs0 fullPath o).fs fullPath = fs0 fullPath) ∧
    (∀ s ∈ (downloadTimeModel fs0 fullPath o).trace,
       s fullPath = fs0 fullPath ∨
       (s fullPath = some o.chunks.sum ∧ o.chunks.sum ≠ 0 ∧
         (0 < o.respContentLength → (o.chunks.sum : Int) = o.respContentLength))) := by
  have hne : fullPath ≠ fullPath ++ ".tmp" := fun h => tmpPath_ne fullPath h.symm
  refine ⟨?_, ?_, ?_⟩
  · rintro ⟨h1, h2⟩
    rw [downloadTimeModel_result] at h1
    obtain ⟨hw, hcl⟩ := downloadTimeRetErr_none_facts o h1
    have hc : ¬((downloadTimeRetErr o).isSome = true ∨ o.ctxErrAtDefer = true) := by
      rw [h1, h2]
      simp
    obtain ⟨ha, hb⟩ := downloadTimeModel_fs_ok fs0 fullPath o hc
    exact ⟨hw, hcl, ha, hb⟩
  · intro h
    have hc : (downloadTimeRetErr o).isSome = true ∨ o.ctxErrAtDefer = true := by
      rcases h with h | h
      · rw [downloadTimeModel_result] at h
        exact Or.inl (Option.ne_none_iff_isSome.mp h)
      · exact Or.inr h
    exact downloadTimeModel_fs_err fs0 fullPath o hc
  · intro s hs
    rw [downloadTimeModel_trace] at hs
    simp only [List.mem_cons, List.mem_append, List.not_mem_nil, or_false] at hs
    rcases hs with rfl | rfl | hs | rfl
    · exact Or.inl rfl
    · exact Or.inl (fsWrite_other fs0 (fullPath ++ ".tmp") fullPath 0 hne)
    · refine Or.inl ?_
      rw [writeStates_mem_other (fullPath ++ ".tmp") fullPath hne o.chunks
        (fsWrite fs0 (fullPath ++ ".tmp") 0) 0 s hs,
        fsWrite_other fs0 (fullPath ++ ".tmp") fullPath 0 hne]
    · by_cases hc : (downloadTimeRetErr o).isSome = true ∨ o.ctxErrAtDefer = true
      · exact Or.inl (downloadTimeModel_fs_err fs0 fullPath o hc).2
      · have hnone : downloadTimeRetErr o = none := by
          rcases hval : downloadTimeRetErr o with _ | v
          · rfl
          · exact absurd (Or.inl (by rw [hval]; rfl)) hc
        obtain ⟨hw, hcl⟩ := downloadTimeRetErr_none_facts o hnone
        exact Or.inr ⟨(downloadTimeModel_fs_ok fs0 fullPath o hc).1, hw, hcl⟩

/-- Closed instance of C1: a two-chunk download of 12 bytes matching the
declared content length lands the 12-byte file at the destination. -/
theorem C1_downloadTime_atomic_witness :
    (downloadTimeModel fsEmpty "zones/com.zone"
        ⟨[5, 7], false, 12, false, false⟩).fs "zones/com.zone" = some 12 ∧
      (downloadTimeModel fsEmpty "zones/com.zone"
        ⟨[5, 7], false, 12, false, false⟩).fs "zones/com.zone.tmp" = none := by
  have h := (C1_downloadTime_atomic fsEmpty "zones/com.zone"
    ⟨[5, 7], false, 12, false, false⟩).1 ⟨by decide, rfl⟩
  exact ⟨h.2.2.1, h.2.2.2⟩

/-! ## C2 -/

/-- C2 counterexample: the server-supplied filename ../../etc/passwd is
not rejected by the fetcher, contrary to the claim: it is reduced to its
final segment passwd and accepted, resolving inside the output
directory. -/
theorem C2_counterexample :
    zoneDownloadResolve "/home/user" "zones" "../../etc/passwd" =
      Except.ok "zones/passwd" := by decide

/-- C2 amended: the fetcher reduces the resolved name to its final path
segment, rejects a final segment of dot or dotdot, and rejects a resolved
absolute path outside the output directory; the name dotdot is rejected,
while ../../etc/passwd is reduced to passwd and written inside the output
directory rather than rejected. -/
theorem C2_path_safety (cwd outDir name : String) :
    ((filepathBase name = "." ∨ filepathBase name = "..") →
       zoneDownloadResolve cwd outDir name = Except.error "invalid filename") ∧
    (∀ p, zoneDownloadResolve cwd outDir name = Except.ok p →
       p = filepathJoin outDir (filepathBase name) ∧
       (strHasPre (filepathAbs cwd outDir ++ "/") (filepathAbs cwd p) = true ∨
         filepathAbs cwd p = filepathAbs cwd outDir)) ∧
    zoneDownloadResolve cwd outDir ".." = Except.error "invalid filename" ∧
    zoneDownloadResolve "/home/user" "zones" "../../etc/passwd" =
      Except.ok "zones/passwd" := by
  refine ⟨?_, ?_, ?_, by decide⟩
  · intro h
    unfold zoneDownloadResolve
    rw [if_pos h]
  · intro p hp
    unfold zoneDownloadResolve at hp
    by_cases h1 : filepathBase name = "." ∨ filepathBase name = ".."
    · rw [if_pos h1] at hp
      exact Except.noConfusion hp
    · rw [if_neg h1] at hp
      by_cases h2 : ¬ strHasPre (filepathAbs cwd outDir ++ "/")
          (filepathAbs cwd (filepathJoin outDir (filepathBase name))) = true ∧
          filepathAbs cwd (filepathJoin outDir (filepathBase name)) ≠
            filepathAbs cwd outDir
      · rw [if_pos h2] at hp
        exact Except.noConfusion hp
      · rw [if_neg h2] at hp
        have hpe : p = filepathJoin outDir (filepathBase name) :=
          (Except.ok.injEq _ _ ▸ congrArg id hp.symm : _)
        subst hpe
        refine ⟨rfl, ?_⟩
        by_cases h3 : strHasPre (filepathAbs cwd outDir ++ "/")
            (filepathAbs cwd (filepathJoin outDir (filepathBase name))) = true
        · exact Or.inl h3
        · refine Or.inr ?_
          by_contra h4
          exact h2 ⟨h3, h4⟩
  · have hb : filepathBase ".." = ".." := by decide
    unfold zoneDownloadResolve
    rw [if_pos (Or.inr hb)]

/-- Closed instance of the amended C2: a normal filename resolves inside
the output directory. -/
theorem C2_path_safety_witness :
    zoneDownloadResolve "/home/user" "zones" "com.zone" =
        Except.ok "zones/com.zone" ∧
      ("zones/com.zone" = filepathJoin "zones" (filepathBase "com.zone") ∧
        (strHasPre (filepathAbs "/home/user" "zones" ++ "/")
            (filepathAbs "/home/user" "zones/com.zone") = true ∨
          filepathAbs "/home/user" "zones/com.zone" =
            filepathAbs "/home/user" "zones")) := by
  refine ⟨by decide, ?_⟩
  exact (C2_path_safety "/home/user" "zones" "com.zone").2.1 "zones/com.zone"
    (by decide)

/-! ## Lemmas about the token lifecycle -/

theorem decodeJWTExp_ok_ne_empty
    (jwtRest : String → String → String → Except String Int) (s : String)
    (v : Int) (h : decodeJWTExp jwtRest s = Except.ok v) : s ≠ "" := by
  intro he
  subst he
  unfold decodeJWTExp at h
  have hs : splitOnChar '.' "" = [""] := by decide
  rw [hs] at h
  exact Except.noConfusion h

theorem authenticateGo_ok
    (jwtRest : String → String → String → Except String Int) (now : Int)
    (net : Except String String) (st st1 : AuthState)
    (h : authenticateGo jwtRest now net st = Except.ok st1) :
    st1.accessToken ≠ "" ∧ now < st1.authExp := by
  cases net with
  | error e => exact Except.noConfusion h
  | ok tok =>
    simp only [authenticateGo] at h
    split at h
    · exact Except.noConfusion h
    · rename_i exp hdec
      by_cases hlt : now < exp
      · rw [if_pos hlt] at h
        have hst : ({ accessToken := tok, authExp := exp } : AuthState) = st1 :=
          Except.ok.inj h
        subst hst
        exact ⟨decodeJWTExp_ok_ne_empty jwtRest tok exp hdec, hlt⟩
      · rw [if_neg hlt] at h
        exact Except.noConfusion h

theorem checkAuthSeq_valid
    (jwtRest : String → String → String → Except String Int) (now : Int)
    (nets : Nat → Except String String) (st : AuthState)
    (h1 : st.accessToken ≠ "") (h2 : now + bufferTime ≤ st.authExp) :
    ∀ (k c : Nat), checkAuthSeq jwtRest now nets k st c =
      (st, c, List.replicate k (Except.ok st)) := by
  intro k
  induction k with
  | zero => intro c; rfl
  | succ k ih =>
    intro c
    have h2b : ¬ st.authExp < now + bufferTime := by omega
    have hg : checkAuthGo jwtRest now (nets c) st = (Except.ok st, false) := by
      unfold checkAuthGo
      rw [if_neg h1, if_neg h2b]
    simp only [checkAuthSeq, hg, ih]
    simp [List.replicate_succ]

/-! ## C4 -/

/-- C4 counterexample: checkAuth succeeds right after a renewal whose
fresh token expires only 5 time-units from now, so the stored expiry is
not at least 30 time-units after the current time as claimed. -/
theorem C4_counterexample :
    (checkAuthGo (fun _ _ _ => Except.ok 5) 0 (Except.ok "a.b.c")
        { accessToken := "", authExp := 0 }).1 =
      Except.ok { accessToken := "a.b.c", authExp := 5 } ∧
      ¬ ((0 : Int) + bufferTime ≤ 5) := by decide

/-- C4 amended: whenever checkAuth returns successfully, the stored token
is non-empty and its expiry is strictly later than the current time; the
30 time-unit margin holds exactly when no renewal was performed, while a
renewal is accepted as soon as the fresh expiry is in the future at
all. -/
theorem C4_checkAuth_post
    (jwtRest : String → String → String → Except String Int) (now : Int)
    (net : Except String String) (st st1 : AuthState) (b : Bool)
    (h : checkAuthGo jwtRest now net st = (Except.ok st1, b)) :
    st1.accessToken ≠ "" ∧ now < st1.authExp ∧
      (b = false → now + bufferTime ≤ st1.authExp) := by
  unfold checkAuthGo at h
  by_cases h1 : st.accessToken = ""
  · rw [if_pos h1] at h
    obtain ⟨ha, hb⟩ := Prod.mk.injEq .. ▸ h
    obtain ⟨hn, hlt⟩ := authenticateGo_ok jwtRest now net st st1 ha
    exact ⟨hn, hlt, fun hb0 => absurd (hb0 ▸ hb) (by simp)⟩
  · rw [if_neg h1] at h
    by_cases h2 : st.authExp < now + bufferTime
    · rw [if_pos h2] at h
      obtain ⟨ha, hb⟩ := Prod.mk.injEq .. ▸ h
      obtain ⟨hn, hlt⟩ := authenticateGo_ok jwtRest now net st st1 ha
      exact ⟨hn, hlt, fun hb0 => absurd (hb0 ▸ hb) (by simp)⟩
    · rw [if_neg h2] at h
      obtain ⟨ha, hb⟩ := Prod.mk.injEq .. ▸ h
      have hst : st = st1 := Except.ok.inj ha
      subst hst
      have hbuf : bufferTime = 30 := rfl
      exact ⟨h1, by omega, fun _ => by omega⟩

/-- Closed instance of the amended C4: a renewal with a long-lived token
yields a non-empty token with a future expiry. -/
theorem C4_checkAuth_post_witness :
    ({ accessToken := "a.b.c", authExp := 100 } : AuthState).accessToken ≠ "" ∧
      (0 : Int) < ({ accessToken := "a.b.c", authExp := 100 } : AuthState).authExp ∧
      (true = false →
        (0 : Int) + bufferTime ≤
          ({ accessToken := "a.b.c", authExp := 100 } : AuthState).authExp) :=
  C4_checkAuth_post (fun _ _ _ => Except.ok 100) 0 (Except.ok "a.b.c")
    { accessToken := "", authExp := 0 }
    { accessToken := "a.b.c", authExp := 100 } true (by decide)

/-! ## C8 -/

/-- C8 counterexample: two serialized callers that both start from a
missing token, with the renewal returning a token that expires 10
time-units from now (inside the 30 time-unit buffer), perform two network
authentication calls, not exactly one as claimed. -/
theorem C8_counterexample :
    (checkAuthSeq (fun _ _ _ => Except.ok 10) 0 (fun _ => Except.ok "a.b.c")
        2 { accessToken := "", authExp := 0 } 0).2.1 = 2 := by decide

/-- C8 amended: with the callers serialized under the session mutex, if
the initial token is missing or within the expiry buffer and the first
network authentication yields a token whose expiry clears the 30
time-unit buffer, then K ≥ 1 callers perform exactly one network
authentication, the final stored state is the renewed token, and every
caller observes it; a fresh token expiring within the buffer instead
triggers one further network call per subsequent caller. -/
theorem C8_single_flight
    (jwtRest : String → String → String → Except String Int) (now : Int)
    (nets : Nat → Except String String) (st0 newSt : AuthState) (K : Nat)
    (hinvalid : st0.accessToken = "" ∨ st0.authExp < now + bufferTime)
    (hfirst : authenticateGo jwtRest now (nets 0) st0 = Except.ok newSt)
    (hmargin : now + bufferTime ≤ newSt.authExp) (hK : 1 ≤ K) :
    (checkAuthSeq jwtRest now nets K st0 0).2.1 = 1 ∧
      (checkAuthSeq jwtRest now nets K st0 0).1 = newSt ∧
      ∀ r ∈ (checkAuthSeq jwtRest now nets K st0 0).2.2,
        r = Except.ok newSt := by
  obtain ⟨k, rfl⟩ : ∃ k, K = k + 1 := ⟨K - 1, by omega⟩
  have hg0 : checkAuthGo jwtRest now (nets 0) st0 =
      (authenticateGo jwtRest now (nets 0) st0, true) := by
    unfold checkAuthGo
    rcases hinvalid with h | h
    · rw [if_pos h]
    · by_cases he : st0.accessToken = ""
      · rw [if_pos he]
      · rw [if_neg he, if_pos h]
  obtain ⟨hne, _⟩ := authenticateGo_ok jwtRest now (nets 0) st0 newSt hfirst
  simp only [checkAuthSeq, hg0, hfirst, if_true, Nat.zero_add]
  rw [checkAuthSeq_valid jwtRest now nets newSt hne hmargin k 1]
  refine ⟨rfl, rfl, ?_⟩
  intro r hr
  simp only [List.mem_cons, List.eq_of_mem_replicate] at hr
  rcases hr with rfl | hr
  · rfl
  · exact List.eq_of_mem_replicate hr

/-- Closed instance of the amended C8: three serialized callers starting
from a missing token, with a long-lived fresh token, make exactly one
network authentication. -/
theorem C8_single_flight_witness :
    (checkAuthSeq (fun _ _ _ => Except.ok 100) 0 (fun _ => Except.ok "a.b.c")
        3 { accessToken := "", authExp := 0 } 0).2.1 = 1 ∧
      (checkAuthSeq (fun _ _ _ => Except.ok 100) 0 (fun _ => Except.ok "a.b.c")
        3 { accessToken := "", authExp := 0 } 0).1 =
        { accessToken := "a.b.c", authExp := 100 } ∧
      ∀ r ∈ (checkAuthSeq (fun _ _ _ => Except.ok 100) 0
          (fun _ => Except.ok "a.b.c")
          3 { accessToken := "", authExp := 0 } 0).2.2,
        r = Except.ok { accessToken := "a.b.c", authExp := 100 } :=
  C8_single_flight (fun _ _ _ => Except.ok 100) 0 (fun _ => Except.ok "a.b.c")
    { accessToken := "", authExp := 0 }
    { accessToken := "a.b.c", authExp := 100 } 3 (Or.inl rfl) (by decide)
    (by decide) (by decide)

/-! ## Lemmas about the worker retry loop -/

theorem ctxDone_none (now : Nat) : ctxDone none now = false := rfl

theorem fetchOfDownload_snd (p : String) (outcomes : Nat → DownloadOutcome)
    (i : Nat) (fs : FS) :
    (fetchOfDownload p outcomes i fs).2 = downloadTimeRetErr (outcomes i) := rfl

theorem fetchOfDownload_fst (p : String) (outcomes : Nat → DownloadOutcome)
    (i : Nat) (fs : FS) :
    (fetchOfDownload p outcomes i fs).1 = (downloadTimeModel fs p (outcomes i)).fs := rfl

theorem retryLoop_none_uncancelled (fetch : Nat → FS → FS × Option String) :
    ∀ (remaining attempt : Nat) (fs : FS) (now attempts : Nat)
      (sleeps : List Nat) (lastErr : Option String),
      (retryLoop none fetch remaining attempt fs now attempts sleeps
        lastErr).cancelled = false := by
  intro remaining
  induction remaining with
  | zero => intros; rfl
  | succ n ih =>
    intro attempt fs now attempts sleeps lastErr
    rcases hfe : fetch attempt fs with ⟨fs1, e⟩
    cases e with
    | none =>
      simp only [retryLoop, ctxDone_none, Bool.false_eq_true, if_false, hfe]
    | some ev =>
      simp only [retryLoop, ctxDone_none, Bool.false_eq_true, if_false, hfe]
      by_cases hn : n = 0
      · subst hn
        rfl
      · rw [if_neg hn]
        exact ih (attempt + 1) fs1 (now + downloadRetryDelayLen) (attempts + 1)
          (sleeps ++ [downloadRetryDelayLen]) (some ev)

theorem retryLoop_allFail (fetch : Nat → FS → FS × Option String)
    (hf : ∀ i fs, ((fetch i fs).2).isSome = true) :
    ∀ (remaining : Nat), 1 ≤ remaining →
      ∀ (attempt : Nat) (fs : FS) (now attempts : Nat) (sleeps : List Nat)
        (lastErr : Option String),
      (retryLoop none fetch remaining attempt fs now attempts sleeps
          lastErr).attempts = attempts + remaining ∧
      (retryLoop none fetch remaining attempt fs now attempts sleeps
          lastErr).sleeps =
        sleeps ++ List.replicate (remaining - 1) downloadRetryDelayLen ∧
      ((retryLoop none fetch remaining attempt fs now attempts sleeps
          lastErr).lastErr).isSome = true := by
  intro remaining
  induction remaining with
  | zero => intro h; exact absurd h (by omega)
  | succ n ih =>
    intro _ attempt fs now attempts sleeps lastErr
    rcases hfe : fetch attempt fs with ⟨fs1, e⟩
    have hse := hf attempt fs
    rw [hfe] at hse
    cases e with
    | none => exact absurd hse (by simp)
    | some ev =>
      simp only [retryLoop, ctxDone_none, Bool.false_eq_true, if_false, hfe]
      by_cases hn : n = 0
      · subst hn
        simp
      · rw [if_neg hn]
        obtain ⟨ha, hs, he⟩ := ih (by omega) (attempt + 1) fs1
          (now + downloadRetryDelayLen) (attempts + 1)
          (sleeps ++ [downloadRetryDelayLen]) (some ev)
        refine ⟨by rw [ha]; omega, ?_, he⟩
        rw [hs, List.append_assoc]
        congr 1
        have h2 : n + 1 - 1 = 1 + (n - 1) := by omega
        rw [h2, List.replicate_add]
        rfl

theorem retryLoop_firstOk (fetch : Nat → FS → FS × Option String)
    (hf : ∀ fs, (fetch 1 fs).2 = none) :
    ∀ (remaining : Nat), 1 ≤ remaining →
      ∀ (fs : FS) (now attempts : Nat) (sleeps : List Nat)
        (lastErr : Option String),
      retryLoop none fetch remaining 1 fs now attempts sleeps lastErr =
        ⟨(fetch 1 fs).1, now, attempts + 1, sleeps, none, false⟩ := by
  intro remaining h1 fs now attempts sleeps lastErr
  obtain ⟨n, rfl⟩ : ∃ n, remaining = n + 1 := ⟨remaining - 1, by omega⟩
  rcases hfe : fetch 1 fs with ⟨fs1, e⟩
  have hz := hf fs
  rw [hfe] at hz
  subst hz
  simp only [retryLoop, ctxDone_none, Bool.false_eq_true, if_false, hfe]

theorem retryLoop_dl_allFail (p : String) (outcomes : Nat → DownloadOutcome)
    (hfail : ∀ i, (downloadTimeRetErr (outcomes i)).isSome = true) :
    ∀ (remaining : Nat), 1 ≤ remaining →
      ∀ (attempt : Nat) (fs : FS) (now attempts : Nat) (sleeps : List Nat)
        (lastErr : Option String),
      (retryLoop none (fetchOfDownload p outcomes) remaining attempt fs now
          attempts sleeps lastErr).fs (p ++ ".tmp") = none ∧
      (retryLoop none (fetchOfDownload p outcomes) remaining attempt fs now
          attempts sleeps lastErr).fs p = fs p := by
  intro remaining
  induction remaining with
  | zero => intro h; exact absurd h (by omega)
  | succ n ih =>
    intro _ attempt fs now attempts sleeps lastErr
    have herr := downloadTimeModel_fs_err fs p (outcomes attempt)
      (Or.inl (hfail attempt))
    rcases hfe : fetchOfDownload p outcomes attempt fs with ⟨fs1, e⟩
    have he2 : e = downloadTimeRetErr (outcomes attempt) := by
      have h3 := fetchOfDownload_snd p outcomes attempt fs
      rw [hfe] at h3
      exact h3
    have hse : e.isSome = true := by rw [he2]; exact hfail attempt
    have hfs1 : fs1 = (downloadTimeModel fs p (outcomes attempt)).fs := by
      have h3 := fetchOfDownload_fst p outcomes attempt fs
      rw [hfe] at h3
      exact h3
    cases e with
    | none => exact absurd hse (by simp)
    | some ev =>
      simp only [retryLoop, ctxDone_none, Bool.false_eq_true, if_false, hfe]
      by_cases hn : n = 0
      · subst hn
        simp only [if_pos rfl]
        exact ⟨hfs1 ▸ herr.1, hfs1 ▸ herr.2⟩
      · rw [if_neg hn]
        obtain ⟨ha, hb⟩ := ih (by omega) (attempt + 1) fs1
          (now + downloadRetryDelayLen) (attempts + 1)
          (sleeps ++ [downloadRetryDelayLen]) (some ev)
        refine ⟨ha, ?_⟩
        rw [hb, hfs1, herr.2]

theorem ctxDone_le (t now : Nat) (h : t ≤ now) : ctxDone (some t) now = true := by
  simp [ctxDone, h]

theorem ctxDone_gt (t now : Nat) (h : now < t) : ctxDone (some t) now = false := by
  simp only [ctxDone, decide_eq_false_iff_not]
  omega

theorem workerGo_none_complete (retries : Nat) :
    ∀ (ts : List WTask) (fs : FS) (now : Nat),
      (workerGo none retries ts fs now).cancelled = false ∧
      (workerGo none retries ts fs now).reports.length = ts.length := by
  intro ts
  induction ts with
  | nil => intro fs now; exact ⟨rfl, rfl⟩
  | cons t ts ih =>
    intro fs now
    have hrc := retryLoop_none_uncancelled t.fetch retries 1 fs now 0 [] none
    simp only [workerGo, ctxDone_none, Bool.false_eq_true, if_false, hrc]
    obtain ⟨h1, h2⟩ := ih
      (taskCleanup t (retryLoop none t.fetch retries 1 fs now 0 [] none))
      (retryLoop none t.fetch retries 1 fs now 0 [] none).now
    exact ⟨h1, by simp [List.length_cons, h2]⟩

theorem workerGo_sibling (retries : Nat) (hr : 1 ≤ retries) :
    ∀ (ts : List WTask) (fs : FS) (now : Nat) (i : Nat) (s : WTask),
      ts.get? i = some s → (∀ fs2, (s.fetch 1 fs2).2 = none) →
      ∃ rep, (workerGo none retries ts fs now).reports.get? i = some rep ∧
        rep.attempts = 1 ∧ rep.lastErr = none ∧ rep.fullPath = s.fullPath := by
  intro ts
  induction ts with
  | nil => intro fs now i s hg _; exact absurd hg (by simp)
  | cons t ts ih =>
    intro fs now i s hg hok
    have hrc := retryLoop_none_uncancelled t.fetch retries 1 fs now 0 [] none
    simp only [workerGo, ctxDone_none, Bool.false_eq_true, if_false, hrc]
    cases i with
    | zero =>
      have hst : t = s := by simpa using hg
      subst hst
      rw [retryLoop_firstOk t.fetch hok retries hr fs now 0 [] none]
      exact ⟨_, rfl, rfl, rfl, rfl⟩
    | succ j =>
      have hg2 : ts.get? j = some s := by simpa using hg
      simpa using ih
        (taskCleanup t (retryLoop none t.fetch retries 1 fs now 0 [] none))
        (retryLoop none t.fetch retries 1 fs now 0 [] none).now j s hg2 hok

/-! ## C5 -/

/-- C5: a task whose fetch fails on every attempt is attempted exactly
retries times sequentially, the fixed 15 time-unit delay being taken only
between attempts, then abandoned with an error and cleaned up: after the
task is processed neither its temp file nor its destination file remains
on disk; the worker neither aborts nor skips the remaining queued tasks,
and siblings whose fetch works still complete; both the attempts and the
delay are cancellable. -/
theorem C5_worker_retry_cap (retries : Nat) (hr : 1 ≤ retries) (p : String)
    (outcomes : Nat → DownloadOutcome)
    (hfail : ∀ i, (downloadTimeRetErr (outcomes i)).isSome = true)
    (ts : List WTask) (fs0 : FS) (now0 : Nat) :
    (workerGo none retries (⟨p, fetchOfDownload p outcomes⟩ :: ts) fs0
      now0).cancelled = false ∧
    (workerGo none retries (⟨p, fetchOfDownload p outcomes⟩ :: ts) fs0
      now0).reports.length = ts.length + 1 ∧
    (∃ rep, (workerGo none retries (⟨p, fetchOfDownload p outcomes⟩ :: ts) fs0
        now0).reports.get? 0 = some rep ∧
      rep.attempts = retries ∧
      rep.sleeps = List.replicate (retries - 1) downloadRetryDelayLen ∧
      rep.lastErr.isSome = true) ∧
    (∀ i s, ts.get? i = some s → (∀ fs2, (s.fetch 1 fs2).2 = none) →
      ∃ rep, (workerGo none retries (⟨p, fetchOfDownload p outcomes⟩ :: ts) fs0
          now0).reports.get? (i + 1) = some rep ∧
        rep.attempts = 1 ∧ rep.lastErr = none) ∧
    (workerGo none retries [⟨p, fetchOfDownload p outcomes⟩] fs0 now0).fs
      (p ++ ".tmp") = none ∧
    (workerGo none retries [⟨p, fetchOfDownload p outcomes⟩] fs0 now0).fs p =
      none ∧
    (workerGo (some now0) retries (⟨p, fetchOfDownload p outcomes⟩ :: ts) fs0
      now0).cancelled = true ∧
    (workerGo (some now0) retries (⟨p, fetchOfDownload p outcomes⟩ :: ts) fs0
      now0).reports = [] ∧
    (2 ≤ retries →
      (retryLoop (some (now0 + 5)) (fetchOfDownload p outcomes) retries 1 fs0
        now0 0 [] none).cancelled = true ∧
      (retryLoop (some (now0 + 5)) (fetchOfDownload p outcomes) retries 1 fs0
        now0 0 [] none).attempts = 1) := by
  have hfk : ∀ i fs, ((fetchOfDownload p outcomes i fs).2).isSome = true := by
    intro i fs
    rw [fetchOfDownload_snd]
    exact hfail i
  obtain ⟨hc, hl⟩ := workerGo_none_complete retries
    (⟨p, fetchOfDownload p outcomes⟩ :: ts) fs0 now0
  have hrc1 := retryLoop_none_uncancelled (fetchOfDownload p outcomes)
    retries 1 fs0 now0 0 [] none
  obtain ⟨_, _, he1⟩ := retryLoop_allFail (fetchOfDownload p outcomes) hfk
    retries hr 1 fs0 now0 0 [] none
  obtain ⟨htmp1, hfp1⟩ := retryLoop_dl_allFail p outcomes hfail retries hr 1
    fs0 now0 0 [] none
  obtain ⟨ev1, hev1⟩ := Option.isSome_iff_exists.mp he1
  have hnep : p ≠ p ++ ".tmp" := fun h => tmpPath_ne p h.symm
  have hsingle : (workerGo none retries [⟨p, fetchOfDownload p outcomes⟩] fs0
      now0).fs =
      taskCleanup ⟨p, fetchOfDownload p outcomes⟩
        (retryLoop none (fetchOfDownload p outcomes) retries 1 fs0 now0 0 []
          none) := by
    simp only [workerGo, ctxDone_none, Bool.false_eq_true, if_false, hrc1]
  have htmp2 : (workerGo none retries [⟨p, fetchOfDownload p outcomes⟩] fs0
      now0).fs (p ++ ".tmp") = none := by
    rw [hsingle]
    simp only [taskCleanup, hev1]
    by_cases hex : ((retryLoop none (fetchOfDownload p outcomes) retries 1 fs0
        now0 0 [] none).fs p).isSome = true
    · rw [if_pos hex, fsRemove_other _ _ _ (fun h => hnep h.symm)]
      exact htmp1
    · rw [if_neg hex]
      exact htmp1
  have hdest2 : (workerGo none retries [⟨p, fetchOfDownload p outcomes⟩] fs0
      now0).fs p = none := by
    rw [hsingle]
    simp only [taskCleanup, hev1]
    by_cases hex : ((retryLoop none (fetchOfDownload p outcomes) retries 1 fs0
        now0 0 [] none).fs p).isSome = true
    · rw [if_pos hex]
      exact fsRemove_self _ _
    · rw [if_neg hex]
      rcases hval : (retryLoop none (fetchOfDownload p outcomes) retries 1 fs0
          now0 0 [] none).fs p with _ | v
      · rfl
      · exact absurd (by rw [hval]; rfl) hex
  refine ⟨hc, by simpa using hl, ?_, ?_, htmp2, hdest2, ?_, ?_, ?_⟩
  · have hrc := retryLoop_none_uncancelled (fetchOfDownload p outcomes)
      retries 1 fs0 now0 0 [] none
    obtain ⟨ha, hs, he⟩ := retryLoop_allFail (fetchOfDownload p outcomes) hfk
      retries hr 1 fs0 now0 0 [] none
    simp only [workerGo, ctxDone_none, Bool.false_eq_true, if_false, hrc]
    refine ⟨_, rfl, ?_, ?_, he⟩
    · rw [ha]; simp
    · rw [hs]; simp
  · intro i s hg hok
    obtain ⟨rep, h1, h2, h3, _⟩ := workerGo_sibling retries hr
      (⟨p, fetchOfDownload p outcomes⟩ :: ts) fs0 now0 (i + 1) s
      (by simpa using hg) hok
    exact ⟨rep, h1, h2, h3⟩
  · have hct := ctxDone_le now0 now0 (Nat.le_refl now0)
    simp only [workerGo, hct, if_true]
  · have hct := ctxDone_le now0 now0 (Nat.le_refl now0)
    simp only [workerGo, hct, if_true]
  · intro h2
    obtain ⟨n, rfl⟩ : ∃ n, retries = n + 1 := ⟨retries - 1, by omega⟩
    have hn : ¬ n = 0 := by omega
    have hc1 : ctxDone (some (now0 + 5)) now0 = false :=
      ctxDone_gt (now0 + 5) now0 (by omega)
    have hc2 : ctxDone (some (now0 + 5)) (now0 + downloadRetryDelayLen) = true :=
      ctxDone_le (now0 + 5) (now0 + downloadRetryDelayLen) (by
        have : downloadRetryDelayLen = 15 := rfl
        omega)
    rcases hfe : fetchOfDownload p outcomes 1 fs0 with ⟨fs1, e⟩
    have hse : e.isSome = true := by
      have h3 := fetchOfDownload_snd p outcomes 1 fs0
      rw [hfe] at h3
      have h4 : e = downloadTimeRetErr (outcomes 1) := h3
      rw [h4]
      exact hfail 1
    cases e with
    | none => exact absurd hse (by simp)
    | some ev =>
      simp only [retryLoop, hc1, Bool.false_eq_true, if_false, hfe,
        if_neg hn, hc2, if_true]
      constructor <;> simp

/-- Closed instance of C5: with 3 retries and a fetch failing with a
request error each time, the worker reports 3 attempts, two 15 time-unit
sleeps, and a final error for the task, removes both the temp and the
destination file, and still completes the queue. -/
theorem C5_worker_retry_cap_witness :
    (workerGo none 3
      [⟨"zones/com.zone",
        fetchOfDownload "zones/com.zone" (fun _ => ⟨[], true, 0, false, false⟩)⟩]
      fsEmpty 0).cancelled = false ∧
    (∃ rep, (workerGo none 3
      [⟨"zones/com.zone",
        fetchOfDownload "zones/com.zone" (fun _ => ⟨[], true, 0, false, false⟩)⟩]
      fsEmpty 0).reports.get? 0 = some rep ∧
      rep.attempts = 3 ∧
      rep.sleeps = List.replicate 2 downloadRetryDelayLen ∧
      rep.lastErr.isSome = true) ∧
    (workerGo none 3
      [⟨"zones/com.zone",
        fetchOfDownload "zones/com.zone" (fun _ => ⟨[], true, 0, false, false⟩)⟩]
      fsEmpty 0).fs ("zones/com.zone" ++ ".tmp") = none ∧
    (workerGo none 3
      [⟨"zones/com.zone",
        fetchOfDownload "zones/com.zone" (fun _ => ⟨[], true, 0, false, false⟩)⟩]
      fsEmpty 0).fs "zones/com.zone" = none := by
  have h := C5_worker_retry_cap 3 (by omega) "zones/com.zone"
    (fun _ => ⟨[], true, 0, false, false⟩) (fun _ => rfl) [] fsEmpty 0
  exact ⟨h.1, h.2.2.1, h.2.2.2.2.1, h.2.2.2.2.2.1⟩

/-! ## C9 -/

/-- C9: when a task exhausts its retries, the worker removes whatever file
exists at the resolved destination path, including a file that was present
before the task started (here: a pre-existing file of size sz under a
failing forced re-download); after exhaustion neither the destination nor
its temp sibling holds a file. -/
theorem C9_worker_removes_destination (retries : Nat) (hr : 1 ≤ retries)
    (p : String) (outcomes : Nat → DownloadOutcome)
    (hfail : ∀ i, (downloadTimeRetErr (outcomes i)).isSome = true)
    (fs0 : FS) (now0 : Nat) (sz : Nat) (hpre : fs0 p = some sz) :
    (workerGo none retries [⟨p, fetchOfDownload p outcomes⟩] fs0 now0).fs p =
      none ∧
    (workerGo none retries [⟨p, fetchOfDownload p outcomes⟩] fs0 now0).fs
      (p ++ ".tmp") = none := by
  have hfk : ∀ i fs, ((fetchOfDownload p outcomes i fs).2).isSome = true := by
    intro i fs
    rw [fetchOfDownload_snd]
    exact hfail i
  have hrc := retryLoop_none_uncancelled (fetchOfDownload p outcomes)
    retries 1 fs0 now0 0 [] none
  obtain ⟨_, _, he⟩ := retryLoop_allFail (fetchOfDownload p outcomes) hfk
    retries hr 1 fs0 now0 0 [] none
  obtain ⟨htmp, hfp⟩ := retryLoop_dl_allFail p outcomes hfail retries hr 1 fs0
    now0 0 [] none
  obtain ⟨ev, hev⟩ := Option.isSome_iff_exists.mp he
  have hne : p ≠ p ++ ".tmp" := fun h => tmpPath_ne p h.symm
  simp only [workerGo, ctxDone_none, Bool.false_eq_true, if_false, hrc]
  have hclean : taskCleanup ⟨p, fetchOfDownload p outcomes⟩
      (retryLoop none (fetchOfDownload p outcomes) retries 1 fs0 now0 0 [] none) =
      fsRemove (retryLoop none (fetchOfDownload p outcomes) retries 1 fs0 now0
        0 [] none).fs p := by
    simp only [taskCleanup, hev]
    rw [if_pos]
    rw [hfp, hpre]
    rfl
  rw [hclean]
  exact ⟨fsRemove_self _ _,
    by rw [fsRemove_other _ _ _ (fun h => hne h.symm)]; exact htmp⟩

/-- Closed instance of C9: a pre-existing 100-byte file at the destination
is removed after a task fails all 3 attempts. -/
theorem C9_worker_removes_destination_witness :
    (workerGo none 3
      [⟨"zones/com.zone",
        fetchOfDownload "zones/com.zone" (fun _ => ⟨[], true, 0, false, false⟩)⟩]
      (fsWrite fsEmpty "zones/com.zone" 100) 0).fs "zones/com.zone" = none :=
  (C9_worker_removes_destination 3 (by omega) "zones/com.zone"
    (fun _ => ⟨[], true, 0, false, false⟩) (fun _ => rfl)
    (fsWrite fsEmpty "zones/com.zone" 100) 0 100 (by decide)).1

/-! ## C6 -/

/-- C6: with force mode off, redownload (freshness) mode on, and a local
file whose size equals the remote content length and whose modification
time is not older than the remote last-modified time, zoneDownload skips:
it returns success, transfers zero bytes, and performs no download. -/
theorem C6_skip_fresh (info : DlInfo) (size modTime : Int)
    (hsz : size = info.contentLength) (hmt : ¬ modTime < info.lastModified)
    (dlBytes : Nat) (dlErr : Option String) :
    zoneDownloadGo false true info (StatResult.found size modTime) dlBytes
      dlErr = ⟨false, 0, none⟩ := by
  simp [zoneDownloadGo, hsz, hmt]

/-- Closed instance of C6: a 1234-byte local file with a modification time
of 60 against a remote last-modified of 50 is skipped. -/
theorem C6_skip_fresh_witness :
    zoneDownloadGo false true ⟨1234, 50⟩ (StatResult.found 1234 60) 7
      (some "x") = ⟨false, 0, none⟩ :=
  C6_skip_fresh ⟨1234, 50⟩ 1234 60 rfl (by decide) 7 (some "x")

/-! ## C3 -/

/-- C3 counterexample: a 500 response with an empty body (declared content
length 0) is returned immediately as an error, but it is not decoded into
a structured API error carrying a message and numeric status, contrary to
the claim that every non-2xx response is so decoded. -/
theorem C3_counterexample :
    (jsonRequestGo (fun _ => AttemptResult.response ⟨500, 0, none⟩)
        none).result = Except.error (JsonReqError.statusNoBody 500) ∧
    (jsonRequestGo (fun _ => AttemptResult.response ⟨500, 0, none⟩)
        none).attempts = 1 := by decide

/-- C3 amended: a transport error is retried after a fixed 10 time-unit
delay, interruptible by cancellation, up to 3 attempts in total, and
exhaustion returns the last transport error wrapped with the attempt
count; any response, whatever its status, ends the retrying immediately,
and a non-200 response with a nonempty, decodable JSON body is decoded
into a structured API error carrying its message and numeric status (an
empty body yields an unstructured status error instead, still without any
retry). -/
theorem C3_executor_retry :
    (∀ (oracle : Nat → AttemptResult) (e1 e2 e3 : String),
      oracle 1 = AttemptResult.transportErr e1 →
      oracle 2 = AttemptResult.transportErr e2 →
      oracle 3 = AttemptResult.transportErr e3 →
      (apiRequestGo oracle none).result =
          Except.error (ReqError.transport 3 3 e3) ∧
        (apiRequestGo oracle none).attempts = 3 ∧
        (apiRequestGo oracle none).sleeps = [retryDelayLen, retryDelayLen]) ∧
    (∀ (oracle : Nat → AttemptResult) (r : HttpResponse),
      oracle 1 = AttemptResult.response r →
      (apiRequestGo oracle none).result = Except.ok r ∧
        (apiRequestGo oracle none).attempts = 1 ∧
        (apiRequestGo oracle none).sleeps = []) ∧
    (∀ (oracle : Nat → AttemptResult) (e1 : String) (r : HttpResponse),
      oracle 1 = AttemptResult.transportErr e1 →
      oracle 2 = AttemptResult.response r →
      (apiRequestGo oracle none).result = Except.ok r ∧
        (apiRequestGo oracle none).attempts = 2 ∧
        (apiRequestGo oracle none).sleeps = [retryDelayLen]) ∧
    (∀ (oracle : Nat → AttemptResult) (cancelAt : Option Nat)
        (s : Nat) (cl : Int) (msg : String) (hst : Int),
      (apiRequestGo oracle cancelAt).result =
          Except.ok ⟨s, cl, some ⟨msg, hst⟩⟩ →
      s ≠ 200 → cl ≠ 0 →
      (jsonRequestGo oracle cancelAt).result =
          Except.error (JsonReqError.api s hst msg) ∧
        (jsonRequestGo oracle cancelAt).attempts =
          (apiRequestGo oracle cancelAt).attempts) ∧
    (∀ (oracle : Nat → AttemptResult) (e1 : String),
      oracle 1 = AttemptResult.transportErr e1 →
      (apiRequestGo oracle (some 5)).result = Except.error ReqError.ctxCancelled ∧
        (apiRequestGo oracle (some 5)).attempts = 1) := by
  refine ⟨?_, ?_, ?_, ?_, ?_⟩
  · intro oracle e1 e2 e3 h1 h2 h3
    simp only [apiRequestGo, defaultRetries, apiRequestAux, ctxDone_none,
      Bool.false_eq_true, if_false, h1, h2, h3]
    norm_num
  · intro oracle r h1
    simp only [apiRequestGo, defaultRetries, apiRequestAux, ctxDone_none,
      Bool.false_eq_true, if_false, h1]
    refine ⟨?_, ?_, ?_⟩ <;> trivial
  · intro oracle e1 r h1 h2
    simp only [apiRequestGo, defaultRetries, apiRequestAux, ctxDone_none,
      Bool.false_eq_true, if_false, h1, h2]
    norm_num
  · intro oracle cancelAt s cl msg hst hres hs hcl
    simp only [jsonRequestGo, hres]
    rw [if_pos hs, if_pos hcl]
    refine ⟨?_, ?_⟩ <;> trivial
  · intro oracle e1 h1
    have hc1 : ctxDone (some 5) 0 = false := ctxDone_gt 5 0 (by omega)
    have hc2 : ctxDone (some 5) (0 + retryDelayLen) = true :=
      ctxDone_le 5 (0 + retryDelayLen) (by
        have : retryDelayLen = 10 := rfl
        omega)
    simp only [apiRequestGo, defaultRetries, apiRequestAux, hc1,
      Bool.false_eq_true, if_false, h1, hc2, if_true]
    norm_num

/-- Closed instance of the amended C3: an always-failing transport makes
exactly 3 attempts with two 10 time-unit sleeps and surfaces the last
error wrapped with the attempt count. -/
theorem C3_executor_retry_witness :
    (apiRequestGo (fun _ => AttemptResult.transportErr "dial timeout")
        none).result = Except.error (ReqError.transport 3 3 "dial timeout") ∧
    (apiRequestGo (fun _ => AttemptResult.transportErr "dial timeout")
        none).attempts = 3 ∧
    (apiRequestGo (fun _ => AttemptResult.transportErr "dial timeout")
        none).sleeps = [retryDelayLen, retryDelayLen] :=
  C3_executor_retry.1 (fun _ => AttemptResult.transportErr "dial timeout")
    "dial timeout" "dial timeout" "dial timeout" rfl rfl rfl

/-! ## Lemmas about the lister -/

theorem getAllRequestsAux_spec (pages : Nat → Except String (List Nat))
    (items : Nat → List Nat) (hp : ∀ i, pages i = Except.ok (items i)) :
    ∀ (d : Nat), ∀ (p fuel : Nat), d ≤ fuel →
      (∀ j, j < d → items (p + j) ≠ []) → items (p + d) = [] →
      ∀ (out : List Nat) (calls : List (Nat × Nat)),
      getAllRequestsAux pages fuel p (items p) out calls =
        ((out ++ (List.range' p d).flatMap items, none),
          calls ++ (List.range' (p + 1) d).map (fun i => (listPageSize, i))) := by
  intro d
  induction d with
  | zero =>
    intro p fuel _ _ hk out calls
    rw [Nat.add_zero] at hk
    cases fuel with
    | zero => simp [getAllRequestsAux]
    | succ f =>
      rw [hk]
      simp [getAllRequestsAux]
  | succ e ih =>
    intro p fuel hfuel hne hk out calls
    obtain ⟨f, rfl⟩ : ∃ f, fuel = f + 1 := ⟨fuel - 1, by omega⟩
    have hp0 : items p ≠ [] := by
      have := hne 0 (by omega)
      simpa using this
    simp only [getAllRequestsAux, if_neg hp0, hp (p + 1)]
    rw [ih (p + 1) f (by omega)
      (fun j hj => by
        have := hne (j + 1) (by omega)
        rw [show p + 1 + j = p + (j + 1) by omega]
        exact this)
      (by rw [show p + 1 + e = p + (e + 1) by omega]; exact hk)
      (out ++ items p) (calls ++ [(listPageSize, p + 1)])]
    rw [List.range'_succ, List.range'_succ]
    simp [List.flatMap_cons, List.append_assoc]

/-! ## C7 -/

/-- C7 counterexample: a listing run whose second page fetch fails with a
server error terminates after requesting pages 0 and 1, although no
fetched page returned zero items; it returns the error together with the
items gathered so far, not the concatenation of all nonempty pages. -/
theorem C7_counterexample :
    getAllRequestsGo
        (fun i => if i = 0 then Except.ok [1]
          else if i = 1 then Except.error "HTTP 500" else Except.ok []) 10 =
      (([1], some "HTTP 500"), [(listPageSize, 0), (listPageSize, 1)]) ∧
    ∀ c ∈ [(listPageSize, 0), (listPageSize, 1)],
      (fun i => if i = 0 then Except.ok [1]
        else if i = 1 then Except.error "HTTP 500" else Except.ok [])
        c.2 ≠ Except.ok ([] : List Nat) := by decide

/-- C7 amended: in a listing run where every page fetch succeeds, pages of
the fixed size 100 are requested in strictly increasing page-index order
starting from 0, no index twice, the run terminates exactly at the first
page with zero items, and the result is the order-preserving concatenation
of the preceding nonempty pages; a page fetch error instead ends the run
early with that error and the items gathered so far. -/
theorem C7_lister_pagination (pages : Nat → Except String (List Nat))
    (items : Nat → List Nat) (hp : ∀ i, pages i = Except.ok (items i))
    (k : Nat) (hk : items k = []) (hmin : ∀ i, i < k → items i ≠ [])
    (fuel : Nat) (hfuel : k ≤ fuel) :
    getAllRequestsGo pages fuel =
      (((List.range k).flatMap items, none),
        (List.range (k + 1)).map (fun i => (listPageSize, i))) ∧
    List.Pairwise (· < ·)
      (((List.range (k + 1)).map (fun i => (listPageSize, i))).map Prod.snd) := by
  constructor
  · have h0 := getAllRequestsAux_spec pages items hp k 0 fuel hfuel
      (fun j hj => by simpa using hmin j hj) (by simpa using hk)
      [] [(listPageSize, 0)]
    simp only [getAllRequestsGo, hp 0]
    rw [h0]
    rw [List.range_eq_range' k, List.range_eq_range' (k + 1), List.range'_succ]
    simp
  · have : (((List.range (k + 1)).map (fun i => (listPageSize, i))).map
        Prod.snd) = List.range (k + 1) := by
      simp [List.map_map, Function.comp]
    rw [this]
    exact List.pairwise_lt_range (k + 1)

/-- Closed instance of the amended C7: two nonempty pages followed by an
empty page yield the concatenation of both pages and page requests 0, 1, 2
at size 100. -/
theorem C7_lister_pagination_witness :
    getAllRequestsGo
        (fun i => if i = 0 then Except.ok [10, 11]
          else if i = 1 then Except.ok [12] else Except.ok []) 5 =
      (([10, 11, 12], none),
        [(listPageSize, 0), (listPageSize, 1), (listPageSize, 2)]) := by
  have h := (C7_lister_pagination
    (fun i => if i = 0 then Except.ok [10, 11]
      else if i = 1 then Except.ok [12] else Except.ok [])
    (fun i => if i = 0 then [10, 11] else if i = 1 then [12] else [])
    (fun i => by
      by_cases h0 : i = 0
      · simp [h0]
      · by_cases h1 : i = 1 <;> simp [h0, h1])
    2 (by decide) (fun i hi => by interval_cases i <;> decide) 5 (by omega)).1
  rw [h]
  decide

/-! ## C10 -/

/-- C10: the String and GoString renderings of Credentials do not depend
on the Password field, and those of authResponse do not depend on the
AccessToken field: any two values differing only in the secret field
render identically, the secret being replaced by a fixed redaction
marker. -/
theorem C10_redaction (c1 c2 : Credentials) (a1 a2 : AuthResponseData)
    (hc : c1.username = c2.username) (ha : a1.message = a2.message) :
    credentialsString c1 = credentialsString c2 ∧
    credentialsGoString c1 = credentialsGoString c2 ∧
    authResponseString a1 = authResponseString a2 ∧
    authResponseGoString a1 = authResponseGoString a2 := by
  unfold credentialsString credentialsGoString authResponseString
    authResponseGoString
  rw [hc, ha]
  exact ⟨rfl, rfl, rfl, rfl⟩

/-- Closed instance of C10: two credential values with different passwords
and two auth responses with different access tokens render identically. -/
theorem C10_redaction_witness :
    credentialsString ⟨"user", "hunter2"⟩ =
        credentialsString ⟨"user", "swordfish"⟩ ∧
      credentialsGoString ⟨"user", "hunter2"⟩ =
        credentialsGoString ⟨"user", "swordfish"⟩ ∧
      authResponseString ⟨"tokenA", "ok"⟩ = authResponseString ⟨"tokenB", "ok"⟩ ∧
      authResponseGoString ⟨"tokenA", "ok"⟩ =
        authResponseGoString ⟨"tokenB", "ok"⟩ :=
  C10_redaction ⟨"user", "hunter2"⟩ ⟨"user", "swordfish"⟩ ⟨"tokenA", "ok"⟩
    ⟨"tokenB", "ok"⟩ rfl rfl

end Czds
